import Mathlib

/-!
Verification development for the Yatube blogging application
(`posts/models.py`, `posts/views.py`).

The data model (Group, Post, Comment, Follow) is embedded as Lean
structures over identifier-indexed rows; the view functions of
`posts/views.py` are embedded as pure state transformers on a `DBState`.
Timestamps are modelled as naturals, users by their numeric ids.
-/

namespace Yatube

/-- Row of the `Group` model (`models.py`): title, unique slug, description. -/
structure Group where
  id : Nat
  title : String
  slug : String
  description : String
deriving Repr, DecidableEq

/-- Row of the `Post` model (`models.py`): text, `pub_date` (auto-set at
creation), author (FK User, CASCADE), optional group (FK Group, SET_NULL),
optional image.  `Meta.ordering = ['-pub_date']`. -/
structure Post where
  id : Nat
  text : String
  pub_date : Nat
  author : Nat
  group : Option Nat
  image : Option String
deriving Repr, DecidableEq

/-- Row of the `Comment` model (`models.py`): post (FK Post, CASCADE),
author (FK User, CASCADE), text, `created` auto-set. -/
structure Comment where
  id : Nat
  post : Nat
  author : Nat
  text : String
  created : Nat
deriving Repr, DecidableEq

/-- Row of the `Follow` model (`models.py`): `user` is the follower,
`author` the followed account; both FK User with CASCADE. -/
structure Follow where
  id : Nat
  user : Nat
  author : Nat
deriving Repr, DecidableEq

/-- Database state: the tables backing the application, plus auto-increment
counters for the primary keys handed to new rows. -/
structure DBState where
  users : List Nat
  groups : List Group
  posts : List Post
  comments : List Comment
  follows : List Follow
  nextPostId : Nat
  nextCommentId : Nat
  nextFollowId : Nat
deriving Repr, DecidableEq

/-! ## Paginator (Django `Paginator` as used by `get_page_context`)

`get_page_context` builds `Paginator(queryset, settings.POSTS_COUNT)` and
calls `paginator.get_page(request.GET.get('page'))`.  Django semantics:
`num_pages = ceil(max(1, count) / per_page)`; `get_page` maps a missing or
non-integer parameter to page 1 and an out-of-range integer (less than 1 or
greater than `num_pages`) to the last page; page `n` holds the items with
indices `(n-1)*per_page .. n*per_page - 1` of the ordered collection. -/

/-- Number of pages of a collection of `count` items at `perPage` per page:
`ceil(max(1, count) / perPage)` (an empty collection still has one page). -/
def numPages (count perPage : Nat) : Nat :=
  (max 1 count + perPage - 1) / perPage

/-- Resolution of the `page` query parameter by `Paginator.get_page`:
`none` stands for a missing or non-integer parameter (page 1); an integer
below 1 or above `num_pages` falls back to the last page. -/
def resolvePage (count perPage : Nat) (param : Option Int) : Nat :=
  match param with
  | none => 1
  | some n =>
      if n < 1 then numPages count perPage
      else if (numPages count perPage : Int) < n then numPages count perPage
      else n.toNat

/-- Items of page `number` (1-indexed) of `l` at `perPage` items per page. -/
def pageItems (l : List α) (perPage number : Nat) : List α :=
  (l.drop ((number - 1) * perPage)).take perPage

/-- Shallow embedding of `get_page_context` (`views.py`): the `page_obj`
contents for the given ordered collection, page size and `page` parameter. -/
def get_page_context (l : List α) (perPage : Nat) (param : Option Int) : List α :=
  pageItems l perPage (resolvePage l.length perPage param)

/-! ## Queryset ordering (`Post.Meta.ordering = ['-pub_date']`)

The model declares `ordering = ['-pub_date']` and nothing else; the SQL
`ORDER BY pub_date DESC` thus constrains rows only up to ties. -/

/-- Comparison declared by `Post.Meta.ordering`: `pub_date` descending. -/
def dateDesc (a b : Post) : Prop := b.pub_date ≤ a.pub_date

instance : DecidableRel dateDesc := fun a b => Nat.decLe b.pub_date a.pub_date

instance : IsTotal Post dateDesc := ⟨fun a b => Nat.le_total b.pub_date a.pub_date⟩

instance : IsTrans Post dateDesc := ⟨fun _ _ _ h1 h2 => Nat.le_trans h2 h1⟩

/-- Row orders the database may return for a `Post` queryset: any
permutation of the stored rows that is non-increasing in `pub_date`.
The declared ordering names no secondary key, so equal timestamps carry
no constraint. -/
def postsOrdered (rows result : List Post) : Prop :=
  rows.Perm result ∧ result.Sorted dateDesc

/-- One concrete order permitted by `postsOrdered`, used where the
embedding needs a deterministic listing (the cached `index` body). -/
def sortPostsDesc (l : List Post) : List Post := l.insertionSort dateDesc

/-! ## Forms

`views.py` imports `PostForm` and `CommentForm` from `posts/forms.py`,
which is not part of the source tree; their validation is modelled from
the spec. -/

/-- Data bound to a `PostForm`: text plus optional group and image. -/
structure PostFormData where
  text : String
  group : Option Nat
  image : Option String
deriving Repr, DecidableEq

/-- Modelled from the spec: `PostForm.is_valid()` (`posts/forms.py` is
missing from the source tree) — non-empty text required; group and image
optional. -/
def PostFormData.isValid (f : PostFormData) : Bool := f.text != ""

/-- Modelled from the spec: `CommentForm.is_valid()` (`posts/forms.py` is
missing from the source tree) — non-empty text required. -/
def commentFormValid (text : String) : Bool := text != ""

/-! ## Responses and view handlers (`views.py`)

Each handler is a pure transformer `DBState → DBState × HttpResult`.
Handlers decorated `@login_required` take the acting user as a `Nat`
(an authenticated identity); usernames are identified with user ids. -/

/-- Redirect targets used by the view handlers. -/
inductive Route where
  | postDetail (postId : Nat)
  | profile (username : Nat)
  | followIndex
deriving Repr, DecidableEq

/-- Outcome of a view handler: a rendered template (carrying the bound
form data when a form is re-displayed), a redirect, or a 404. -/
inductive HttpResult where
  | render (template : String) (form : Option PostFormData)
  | redirect (target : Route)
  | notFound
deriving Repr, DecidableEq

/-- Whether a result re-renders a form with the submitted text preserved. -/
def HttpResult.preservesInput (r : HttpResult) (text : String) : Bool :=
  match r with
  | .render _ (some f) => f.text == text
  | _ => false

/-- Shallow embedding of `post_create` (`views.py`): on valid input, save a
new post with `author` forced to the acting user and redirect to the
author's profile; otherwise re-render the form with the bound data. -/
def post_create (s : DBState) (actor : Nat) (f : PostFormData) (now : Nat) :
    DBState × HttpResult :=
  if f.isValid then
    let p : Post := { id := s.nextPostId, text := f.text, pub_date := now,
                      author := actor, group := f.group, image := f.image }
    ({ s with posts := s.posts ++ [p], nextPostId := s.nextPostId + 1 },
     .redirect (.profile actor))
  else (s, .render "posts/post_create.html" (some f))

/-- Shallow embedding of `post_edit` (`views.py`): 404 on a missing post;
a non-author is redirected to the post's detail page with no change; the
author saves valid input in place or gets the form re-rendered. -/
def post_edit (s : DBState) (actor postId : Nat) (f : PostFormData) :
    DBState × HttpResult :=
  match s.posts.find? (fun p => p.id == postId) with
  | none => (s, .notFound)
  | some post =>
      if post.author != actor then (s, .redirect (.postDetail post.id))
      else if f.isValid then
        ({ s with posts := s.posts.map (fun p =>
            if p.id == postId then
              { p with text := f.text, group := f.group, image := f.image,
                       author := actor }
            else p) },
         .redirect (.postDetail post.id))
      else (s, .render "posts/post_create.html" (some f))

/-- Shallow embedding of `add_comment` (`views.py`): 404 on a missing
post; valid input saves a comment bound to the post and the acting user;
in every non-404 case the handler redirects to the post's detail page. -/
def add_comment (s : DBState) (actor postId : Nat) (text : String) (now : Nat) :
    DBState × HttpResult :=
  match s.posts.find? (fun p => p.id == postId) with
  | none => (s, .notFound)
  | some post =>
      if commentFormValid text then
        let c : Comment := { id := s.nextCommentId, post := post.id,
                             author := actor, text := text, created := now }
        ({ s with comments := s.comments ++ [c],
                  nextCommentId := s.nextCommentId + 1 },
         .redirect (.postDetail post.id))
      else (s, .redirect (.postDetail post.id))

/-- Shallow embedding of `follow_index`'s queryset (`views.py`): the posts
whose author is among the accounts the user follows
(`Post.objects.filter(author__id__in=user.follower.values_list('author'))`). -/
def follow_index_posts (s : DBState) (u : Nat) : List Post :=
  s.posts.filter (fun p => s.follows.any (fun f => f.user == u && f.author == p.author))

/-- Shallow embedding of `profile_follow` (`views.py`): 404 on an unknown
username; when the acting user differs from the author,
`Follow.objects.get_or_create(user, author)`; always redirect to the
follow feed otherwise. -/
def profile_follow (s : DBState) (userActive authorId : Nat) :
    DBState × HttpResult :=
  if s.users.contains authorId then
    if userActive != authorId then
      if s.follows.any (fun f => f.user == userActive && f.author == authorId) then
        (s, .redirect .followIndex)
      else
        let fl : Follow := { id := s.nextFollowId, user := userActive,
                             author := authorId }
        ({ s with follows := s.follows ++ [fl],
                  nextFollowId := s.nextFollowId + 1 },
         .redirect .followIndex)
    else (s, .redirect .followIndex)
  else (s, .notFound)

/-- Shallow embedding of `profile_unfollow` (`views.py`): 404 on an
unknown username; otherwise delete every `Follow` row of the pair (a
no-op when none exists) and redirect to the follow feed. -/
def profile_unfollow (s : DBState) (userActive authorId : Nat) :
    DBState × HttpResult :=
  if s.users.contains authorId then
    ({ s with follows :=
        s.follows.filter (fun f => !(f.user == userActive && f.author == authorId)) },
     .redirect .followIndex)
  else (s, .notFound)

/-- Embedding of the `following` context flag of `profile` (`views.py`):
`user.is_authenticated and author.following.exists()` — the requester is
`none` when unauthenticated, and `author.following` is the set of `Follow`
rows whose `author` field is the profiled author. -/
def profile_following (s : DBState) (requester : Option Nat) (authorId : Nat) : Bool :=
  requester.isSome && s.follows.any (fun f => f.author == authorId)

/-! ## Deletion semantics (the `on_delete` declarations of `models.py`)

`Post.group` is `SET_NULL`; `Post.author`, `Comment.post`, `Comment.author`,
`Follow.user` and `Follow.author` are `CASCADE`. -/

/-- Deleting a `Group`: `Post.group` declares `on_delete=SET_NULL`, so each
member post survives with its group reference cleared. -/
def delete_group (s : DBState) (gid : Nat) : DBState :=
  { s with groups := s.groups.filter (fun g => g.id != gid),
           posts := s.posts.map (fun p =>
             if p.group == some gid then { p with group := none } else p) }

/-- Deleting a `Post`: `Comment.post` declares `on_delete=CASCADE`, so the
post's comments are deleted with it. -/
def delete_post (s : DBState) (pid : Nat) : DBState :=
  { s with posts := s.posts.filter (fun p => p.id != pid),
           comments := s.comments.filter (fun c => c.post != pid) }

/-- Deleting a `User`: `Post.author`, `Comment.author`, `Follow.user` and
`Follow.author` all declare `on_delete=CASCADE`, so the user's posts (and,
through `Comment.post`, the comments on them), the user's comments, and
every `Follow` row on either side of the user are deleted. -/
def delete_user (s : DBState) (uid : Nat) : DBState :=
  { s with users := s.users.filter (fun u => u != uid),
           posts := s.posts.filter (fun p => p.author != uid),
           comments := s.comments.filter (fun c =>
             !(c.author == uid || s.posts.any (fun p => p.id == c.post && p.author == uid))),
           follows := s.follows.filter (fun f => !(f.user == uid || f.author == uid)) }

/-! ## Home page cache (`@cache_page(settings.CACHES_SEC)` on `index`)

The rendered home listing is cached as an opaque body keyed by the
requested URL (here: the `page` query parameter) with a fixed TTL; time is
an explicit `Nat` parameter of each request. -/

/-- Modelled from the spec: the body rendered by `index` — the requested
page of the full post listing, newest first.  `settings.POSTS_COUNT`,
`settings.CACHES_SEC` and the HTML template are not in the source tree;
page size and TTL are parameters and the body is modelled as the ordered
list of posts on the page. -/
def renderIndex (db : DBState) (perPage : Nat) (param : Option Int) : List Post :=
  get_page_context (sortPostsDesc db.posts) perPage param

/-- Cache entries: key (the `page` parameter of the URL), cached body,
expiry time. -/
def CacheTable := List (Option Int × List Post × Nat)

/-- Process state seen by `index`: the database plus the shared page cache. -/
structure CacheState where
  db : DBState
  cache : CacheTable

/-- Lookup of a cache entry by key. -/
def cacheLookup (c : CacheTable) (k : Option Int) : Option (List Post × Nat) :=
  match c.find? (fun e => e.1 == k) with
  | some e => some e.2
  | none => none

/-- Store of a cache entry, replacing any entry under the same key. -/
def cacheStore (c : CacheTable) (k : Option Int) (v : List Post × Nat) : CacheTable :=
  (k, v) :: c.filter (fun e => e.1 != k)

/-- Request of the cached `index` view at time `t`: a fresh unexpired
entry is served as-is; otherwise the body is recomputed from the current
database and cached until `t + ttl`. -/
def indexRequest (cs : CacheState) (k : Option Int) (t ttl perPage : Nat) :
    CacheState × List Post :=
  match cacheLookup cs.cache k with
  | some (content, expiry) =>
      if t < expiry then (cs, content)
      else
        let body := renderIndex cs.db perPage k
        ({ cs with cache := cacheStore cs.cache k (body, t + ttl) }, body)
  | none =>
      let body := renderIndex cs.db perPage k
      ({ cs with cache := cacheStore cs.cache k (body, t + ttl) }, body)

/-- Explicit cache clear (`cache.clear()` as the tests perform it). -/
def cache_clear (cs : CacheState) : CacheState := { cs with cache := [] }

/-- Deletion of a post underneath the cache: the database changes, the
cache is untouched (no per-entity invalidation). -/
def cacheDeletePost (cs : CacheState) (pid : Nat) : CacheState :=
  { cs with db := delete_post cs.db pid }

/-! ## Reachable database states -/

/-- One mutation the application can perform: a mutating view handler or
a model-level delete. -/
inductive Step : DBState → DBState → Prop where
  | createUser (s : DBState) (u : Nat) : Step s { s with users := s.users ++ [u] }
  | createGroup (s : DBState) (g : Group) : Step s { s with groups := s.groups ++ [g] }
  | create (s : DBState) (actor : Nat) (f : PostFormData) (now : Nat) :
      Step s (post_create s actor f now).1
  | edit (s : DBState) (actor pid : Nat) (f : PostFormData) :
      Step s (post_edit s actor pid f).1
  | comment (s : DBState) (actor pid : Nat) (text : String) (now : Nat) :
      Step s (add_comment s actor pid text now).1
  | follow (s : DBState) (u a : Nat) : Step s (profile_follow s u a).1
  | unfollow (s : DBState) (u a : Nat) : Step s (profile_unfollow s u a).1
  | delGroup (s : DBState) (g : Nat) : Step s (delete_group s g)
  | delPost (s : DBState) (p : Nat) : Step s (delete_post s p)
  | delUser (s : DBState) (u : Nat) : Step s (delete_user s u)

/-- Database states reachable from a state without follow rows through
the application's operations. -/
inductive Reachable : DBState → Prop where
  | init (s : DBState) (h : s.follows = []) : Reachable s
  | step (s s' : DBState) (hr : Reachable s) (hs : Step s s') : Reachable s'

/-! ## Derived notions used by the statements -/

/-- Follow rows of the (follower, author) pair `(a, b)`. -/
def pairFollows (s : DBState) (a b : Nat) : List Follow :=
  s.follows.filter (fun f => f.user == a && f.author == b)

/-- Number of accounts the user `u` follows (`user.follower.count()`). -/
def followerCount (s : DBState) (u : Nat) : Nat :=
  (s.follows.filter (fun f => f.user == u)).length

/-- Invariant: no Follow row relates a user to themself. -/
def NoSelfFollow (s : DBState) : Prop := ∀ f ∈ s.follows, f.user ≠ f.author

/-- Strict version of the declared ordering: `pub_date` strictly greater. -/
def dateDescStrict (a b : Post) : Prop := b.pub_date < a.pub_date

instance : IsAntisymm Post dateDescStrict :=
  ⟨fun _ _ h1 h2 => absurd (Nat.lt_trans h1 h2) (Nat.lt_irrefl _)⟩

/-- Effect of a group deletion on one post: the group reference is
cleared for members of the deleted group, all other fields are kept. -/
def groupCleared (gid : Nat) (p : Post) : Post :=
  if p.group == some gid then { p with group := none } else p

/-! ## Concrete fixtures used by the witnesses -/

/-- Demo post: id 1, by user 2, in group 1, published at time 5. -/
def demoPostA : Post :=
  { id := 1, text := "hello", pub_date := 5, author := 2, group := some 1,
    image := none }

/-- Demo post: id 2, by user 3, no group, published at time 7. -/
def demoPostB : Post :=
  { id := 2, text := "world", pub_date := 7, author := 3, group := none,
    image := none }

/-- Demo database without follow rows: three users, one group, two posts,
three comments. -/
def demoBase : DBState :=
  { users := [1, 2, 3],
    groups := [{ id := 1, title := "g", slug := "g", description := "d" }],
    posts := [demoPostA, demoPostB],
    comments := [⟨1, 1, 3, "hi", 6⟩, ⟨2, 2, 2, "yo", 8⟩, ⟨3, 2, 3, "ok", 9⟩],
    follows := [],
    nextPostId := 10, nextCommentId := 10, nextFollowId := 10 }

/-- Demo database with one follow row: user 3 follows user 2. -/
def demoState : DBState := { demoBase with follows := [⟨1, 3, 2⟩] }

/-- Demo form data with non-empty text. -/
def demoForm : PostFormData := { text := "edited", group := none, image := none }

/-- Demo form data with empty text (invalid per the required-text rule). -/
def emptyForm : PostFormData := { text := "", group := none, image := none }

/-- Two posts sharing `pub_date` 5 but with distinct primary keys. -/
def tiedA : Post :=
  { id := 1, text := "a", pub_date := 5, author := 1, group := none, image := none }

/-- Companion of `tiedA` with the larger primary key. -/
def tiedB : Post :=
  { id := 2, text := "b", pub_date := 5, author := 1, group := none, image := none }

/-- Demo process state: the demo database with a cold page cache. -/
def demoCache : CacheState := { db := demoBase, cache := [] }

/-! ## Theorems -/

/-- A collection always spans at least one page. -/
theorem numPages_pos (count perPage : Nat) (hp : 0 < perPage) :
    1 ≤ numPages count perPage := by
  unfold numPages
  rw [Nat.one_le_div_iff hp]
  omega

/-- Defining equation of `resolvePage` for a missing parameter. -/
theorem resolvePage_none (count perPage : Nat) :
    resolvePage count perPage none = 1 := rfl

/-- Defining equation of `resolvePage` for an integer parameter. -/
theorem resolvePage_some (count perPage : Nat) (n : Int) :
    resolvePage count perPage (some n) =
      if n < 1 then numPages count perPage
      else if (numPages count perPage : Int) < n then numPages count perPage
      else n.toNat := rfl

/-- C2: every listing paginates with a fixed page size; the `page` query
parameter is 1-indexed (page 1, like a missing parameter, yields the first
`perPage` items); any out-of-range integer page number yields the last
valid page rather than an error; and a 13-item collection at page size 10
has 10 items on page 1 and 3 items on page 2. -/
theorem pagination_contract {α : Type} (l : List α) (perPage : Nat) (hp : 0 < perPage) :
    (∀ n : Int, (n < 1 ∨ (numPages l.length perPage : Int) < n) →
        get_page_context l perPage (some n) =
          pageItems l perPage (numPages l.length perPage)) ∧
    get_page_context l perPage (some 1) = l.take perPage ∧
    get_page_context l perPage none = l.take perPage ∧
    (l.length = 13 → perPage = 10 →
        (get_page_context l perPage (some 1)).length = 10 ∧
        (get_page_context l perPage (some 2)).length = 3) := by
  have hn := numPages_pos l.length perPage hp
  have hnI : (1 : Int) ≤ (numPages l.length perPage : Int) := by exact_mod_cast hn
  refine ⟨?_, ?_, ?_, ?_⟩
  · intro n hcase
    simp only [get_page_context, resolvePage_some, resolvePage_none]
    rcases hcase with h | h
    · rw [if_pos h]
    · have h1 : ¬ (n < 1) := by omega
      rw [if_neg h1, if_pos h]
  · simp only [get_page_context, resolvePage_some, resolvePage_none]
    have h1 : ¬ ((1 : Int) < 1) := by omega
    have h2 : ¬ ((numPages l.length perPage : Int) < 1) := by omega
    rw [if_neg h1, if_neg h2]
    simp [pageItems]
  · simp only [get_page_context, resolvePage_some, resolvePage_none]
    simp [pageItems]
  · intro h13 h10
    subst h10
    have hnum : numPages l.length 10 = 2 := by rw [h13]; rfl
    constructor
    · simp only [get_page_context, resolvePage_some, resolvePage_none]
      rw [hnum]
      norm_num
      simp [pageItems, List.length_take, List.length_drop, h13]
    · simp only [get_page_context, resolvePage_some, resolvePage_none]
      rw [hnum]
      norm_num
      simp [pageItems, List.length_take, List.length_drop, h13]

/-- Witness for `pagination_contract`: 13 items at page size 10, with the
out-of-range page number 5 falling back to the last page. -/
theorem pagination_contract_witness :
    (0 < 10) ∧
    get_page_context (List.range 13) 10 (some 5) =
      pageItems (List.range 13) 10 (numPages (List.range 13).length 10) ∧
    (get_page_context (List.range 13) 10 (some 1)).length = 10 ∧
    (get_page_context (List.range 13) 10 (some 2)).length = 3 :=
  ⟨by decide,
   (pagination_contract (List.range 13) 10 (by decide)).1 5 (Or.inr (by decide)),
   ((pagination_contract (List.range 13) 10 (by decide)).2.2.2 (by decide) rfl).1,
   ((pagination_contract (List.range 13) 10 (by decide)).2.2.2 (by decide) rfl).2⟩

/-- `post_create` never touches the Follow table. -/
theorem post_create_follows (s : DBState) (a : Nat) (f : PostFormData) (n : Nat) :
    (post_create s a f n).1.follows = s.follows := by
  unfold post_create
  split <;> rfl

/-- `post_edit` never touches the Follow table. -/
theorem post_edit_follows (s : DBState) (a pid : Nat) (f : PostFormData) :
    (post_edit s a pid f).1.follows = s.follows := by
  unfold post_edit
  split
  · rfl
  · split
    · rfl
    · split <;> rfl

/-- `add_comment` never touches the Follow table. -/
theorem add_comment_follows (s : DBState) (a pid : Nat) (t : String) (n : Nat) :
    (add_comment s a pid t n).1.follows = s.follows := by
  unfold add_comment
  split
  · rfl
  · split <;> rfl

/-- `profile_follow` never touches the user table. -/
theorem profile_follow_users (s : DBState) (a b : Nat) :
    (profile_follow s a b).1.users = s.users := by
  unfold profile_follow
  split
  · split
    · split <;> rfl
    · rfl
  · rfl

/-- After `profile_follow` on a distinct, existing author, a Follow row of
the pair exists. -/
theorem profile_follow_pair_any (s : DBState) (a b : Nat) (hab : a ≠ b)
    (hb : s.users.contains b = true) :
    (profile_follow s a b).1.follows.any
      (fun f => f.user == a && f.author == b) = true := by
  unfold profile_follow
  rw [if_pos hb, if_pos (bne_iff_ne.mpr hab)]
  split
  · next h => exact h
  · simp

/-- When the pair already exists, `profile_follow` is the identity on the
state and still redirects (get-or-create raises no error). -/
theorem profile_follow_exists_eq (s : DBState) (a b : Nat) (hab : a ≠ b)
    (hb : s.users.contains b = true)
    (h : s.follows.any (fun f => f.user == a && f.author == b) = true) :
    profile_follow s a b = (s, .redirect .followIndex) := by
  unfold profile_follow
  rw [if_pos hb, if_pos (bne_iff_ne.mpr hab), if_pos h]

/-- After `profile_follow`, the pair has exactly one Follow row (provided
it had at most one before). -/
theorem profile_follow_pair_count (s : DBState) (a b : Nat) (hab : a ≠ b)
    (hb : s.users.contains b = true)
    (hclean : (pairFollows s a b).length ≤ 1) :
    (pairFollows (profile_follow s a b).1 a b).length = 1 := by
  unfold pairFollows at hclean ⊢
  unfold profile_follow
  rw [if_pos hb, if_pos (bne_iff_ne.mpr hab)]
  split
  · next h =>
    rw [List.any_eq_true] at h
    rcases h with ⟨x, hx, hpx⟩
    have hmem : x ∈ s.follows.filter (fun f => f.user == a && f.author == b) :=
      List.mem_filter.mpr ⟨hx, hpx⟩
    have hpos := List.length_pos.mpr (List.ne_nil_of_mem hmem)
    dsimp only
    omega
  · next h =>
    have hfalse : s.follows.any (fun f => f.user == a && f.author == b) = false :=
      Bool.not_eq_true _ ▸ eq_false_of_ne_true h
    rw [List.any_eq_false] at hfalse
    have hnil : s.follows.filter (fun f => f.user == a && f.author == b) = [] :=
      List.filter_eq_nil_iff.mpr hfalse
    dsimp only
    simp [List.filter_append, hnil]

/-- C3: following is idempotent — the second `profile_follow` of a pair of
distinct users changes nothing, raises no error (it still redirects),
leaves exactly one Follow row for the pair and the follower count
unchanged. -/
theorem follow_idempotent (s : DBState) (a b : Nat) (hab : a ≠ b)
    (hb : s.users.contains b = true)
    (hclean : (pairFollows s a b).length ≤ 1) :
    profile_follow (profile_follow s a b).1 a b =
      ((profile_follow s a b).1, .redirect .followIndex) ∧
    (pairFollows (profile_follow s a b).1 a b).length = 1 ∧
    followerCount (profile_follow (profile_follow s a b).1 a b).1 a =
      followerCount (profile_follow s a b).1 a := by
  have hb1 : (profile_follow s a b).1.users.contains b = true := by
    rw [profile_follow_users s a b]; exact hb
  have hany := profile_follow_pair_any s a b hab hb
  have heq := profile_follow_exists_eq (profile_follow s a b).1 a b hab hb1 hany
  refine ⟨heq, profile_follow_pair_count s a b hab hb hclean, ?_⟩
  rw [heq]

/-- Witness for `follow_idempotent`: user 1 follows user 2 twice in the
demo database. -/
theorem follow_idempotent_witness :
    (1 ≠ 2) ∧ demoBase.users.contains 2 = true ∧
    (pairFollows demoBase 1 2).length ≤ 1 ∧
    (profile_follow (profile_follow demoBase 1 2).1 1 2 =
      ((profile_follow demoBase 1 2).1, .redirect .followIndex) ∧
     (pairFollows (profile_follow demoBase 1 2).1 1 2).length = 1 ∧
     followerCount (profile_follow (profile_follow demoBase 1 2).1 1 2).1 1 =
      followerCount (profile_follow demoBase 1 2).1 1) :=
  ⟨by decide, by decide, by decide,
   follow_idempotent demoBase 1 2 (by decide) (by decide) (by decide)⟩

/-- States with identical Follow tables share the `NoSelfFollow` invariant. -/
theorem noSelf_of_follows_eq (s s' : DBState) (h : s'.follows = s.follows)
    (hs : NoSelfFollow s) : NoSelfFollow s' := by
  intro f hf
  rw [h] at hf
  exact hs f hf

/-- `profile_follow` preserves `NoSelfFollow`: the only insertion into the
Follow table is guarded by `user != author`. -/
theorem profile_follow_noSelf (s : DBState) (u a : Nat) (h : NoSelfFollow s) :
    NoSelfFollow (profile_follow s u a).1 := by
  unfold profile_follow
  split
  · split
    · next hne =>
      split
      · exact h
      · intro f hf
        rcases List.mem_append.mp hf with hf' | hf'
        · exact h f hf'
        · have : f = ⟨s.nextFollowId, u, a⟩ := by simpa using hf'
          subst this
          simpa using bne_iff_ne.mp hne
    · exact h
  · exact h

/-- `profile_unfollow` preserves `NoSelfFollow` (it only removes rows). -/
theorem profile_unfollow_noSelf (s : DBState) (u a : Nat) (h : NoSelfFollow s) :
    NoSelfFollow (profile_unfollow s u a).1 := by
  unfold profile_unfollow
  split
  · intro f hf
    exact h f (List.mem_filter.mp hf).1
  · exact h

/-- C4: `profile_follow` of a user on themself is a rejected no-op, and no
reachable state contains a Follow row with `user = author`. -/
theorem self_follow_never_created (s : DBState) :
    (∀ a : Nat, (profile_follow s a a).1 = s) ∧
    (Reachable s → NoSelfFollow s) := by
  constructor
  · intro a
    unfold profile_follow
    split
    · rw [if_neg (by simp)]
    · rfl
  · intro hr
    induction hr with
    | init s h =>
      intro f hf
      rw [h] at hf
      cases hf
    | step s s' _ hs ih =>
      cases hs with
      | createUser u => exact noSelf_of_follows_eq s _ rfl ih
      | createGroup g => exact noSelf_of_follows_eq s _ rfl ih
      | create actor f now => exact noSelf_of_follows_eq s _ (post_create_follows s actor f now) ih
      | edit actor pid f => exact noSelf_of_follows_eq s _ (post_edit_follows s actor pid f) ih
      | comment actor pid t now => exact noSelf_of_follows_eq s _ (add_comment_follows s actor pid t now) ih
      | follow u a => exact profile_follow_noSelf s u a ih
      | unfollow u a => exact profile_unfollow_noSelf s u a ih
      | delGroup g => exact noSelf_of_follows_eq s _ rfl ih
      | delPost p => exact noSelf_of_follows_eq s _ rfl ih
      | delUser u =>
        intro f hf
        exact ih f (List.mem_filter.mp hf).1

/-- Witness for `self_follow_never_created`: the demo database after one
follow operation is reachable and self-follow free. -/
theorem self_follow_never_created_witness :
    (profile_follow demoBase 2 2).1 = demoBase ∧
    NoSelfFollow (profile_follow demoBase 3 2).1 :=
  ⟨(self_follow_never_created demoBase).1 2,
   (self_follow_never_created (profile_follow demoBase 3 2).1).2
     (Reachable.step demoBase _ (Reachable.init demoBase rfl)
       (Step.follow demoBase 3 2))⟩

/-- C10: on the profile page, the `following` flag of an authenticated
request is true exactly when the profiled author has at least one
follower by anyone — it does not depend on who is asking — and the flag
is false for unauthenticated requests. -/
theorem following_flag_spec :
    (∀ (s : DBState) (u authorId : Nat),
        profile_following s (some u) authorId = true ↔
          ∃ fl ∈ s.follows, fl.author = authorId) ∧
    (∀ (s : DBState) (authorId : Nat), profile_following s none authorId = false) ∧
    (∀ (s : DBState) (u v authorId : Nat),
        profile_following s (some u) authorId =
          profile_following s (some v) authorId) := by
  refine ⟨?_, ?_, ?_⟩ <;> intros <;> simp [profile_following, List.any_eq_true]

/-- Membership in the follow feed: exactly the stored posts whose author
the user follows. -/
theorem follow_index_posts_mem (s : DBState) (u : Nat) (p : Post) :
    p ∈ follow_index_posts s u ↔
      p ∈ s.posts ∧ ∃ fl ∈ s.follows, fl.user = u ∧ fl.author = p.author := by
  simp [follow_index_posts, List.mem_filter, List.any_eq_true]

/-- C5: the follow feed of `u` holds exactly the posts whose author `u`
follows; after `a` follows `b`, a post newly created by `b` is in `a`'s
feed, and no post authored by `b` is in the feed of any user with no
Follow row for `b`. -/
theorem follow_feed_scope (s : DBState) (a b : Nat) (f : PostFormData) (now : Nat)
    (hab : a ≠ b) (hb : s.users.contains b = true) (hv : f.isValid = true) :
    (∀ (t : DBState) (u : Nat) (p : Post),
        p ∈ follow_index_posts t u ↔
          p ∈ t.posts ∧ ∃ fl ∈ t.follows, fl.user = u ∧ fl.author = p.author) ∧
    (let s1 := (profile_follow s a b).1
     let s2 := (post_create s1 b f now).1
     let newPost : Post := { id := s1.nextPostId, text := f.text, pub_date := now,
                             author := b, group := f.group, image := f.image }
     newPost ∈ follow_index_posts s2 a ∧
     ∀ c : Nat, (∀ fl ∈ s2.follows, ¬ (fl.user = c ∧ fl.author = b)) →
       ∀ p ∈ s2.posts, p.author = b → p ∉ follow_index_posts s2 c) := by
  refine ⟨fun t u p => follow_index_posts_mem t u p, ?_⟩
  intro s1 s2 newPost
  have hposts : s2.posts = s1.posts ++ [newPost] := by
    show (post_create s1 b f now).1.posts = _
    unfold post_create
    rw [if_pos hv]
  have hfollows : s2.follows = s1.follows := post_create_follows s1 b f now
  have hany := profile_follow_pair_any s a b hab hb
  rw [List.any_eq_true] at hany
  obtain ⟨fl, hfl, hflp⟩ := hany
  rw [Bool.and_eq_true, beq_iff_eq, beq_iff_eq] at hflp
  constructor
  · refine (follow_index_posts_mem s2 a newPost).mpr ⟨?_, fl, ?_, hflp.1, ?_⟩
    · rw [hposts]
      exact List.mem_append_right _ (List.mem_singleton.mpr rfl)
    · rw [hfollows]; exact hfl
    · exact hflp.2
  · intro c hc p hp hpb hmem
    obtain ⟨_, fl', hfl', hflu', hfla'⟩ := (follow_index_posts_mem s2 c p).mp hmem
    exact hc fl' hfl' ⟨hflu', hfla'.trans hpb⟩

/-- Witness for `follow_feed_scope`: user 1 follows user 2 in the demo
database, user 2 posts, the post is in user 1's feed and not in user 3's. -/
theorem follow_feed_scope_witness :
    (1 ≠ 2) ∧ demoBase.users.contains 2 = true ∧ demoForm.isValid = true ∧
    ({ id := (profile_follow demoBase 1 2).1.nextPostId, text := demoForm.text,
       pub_date := 9, author := 2, group := demoForm.group,
       image := demoForm.image : Post } ∈
        follow_index_posts (post_create (profile_follow demoBase 1 2).1 2 demoForm 9).1 1) ∧
    demoPostA ∉
      follow_index_posts (post_create (profile_follow demoBase 1 2).1 2 demoForm 9).1 3 :=
  ⟨by decide, by decide, by decide,
   (follow_feed_scope demoBase 1 2 demoForm 9 (by decide) (by decide) (by decide)).2.1,
   (follow_feed_scope demoBase 1 2 demoForm 9 (by decide) (by decide) (by decide)).2.2
     3 (by decide) demoPostA (by decide) rfl⟩

/-- C6: deleting a Group clears the group reference of its member posts
while keeping every post and all its other fields (and the comments);
deleting a Post deletes exactly its comments; deleting a User deletes the
user's posts, the user's comments and every Follow row involving the user. -/
theorem deletion_cascade :
    (∀ (s : DBState) (gid : Nat),
        (delete_group s gid).posts.length = s.posts.length ∧
        (∀ p ∈ s.posts, groupCleared gid p ∈ (delete_group s gid).posts) ∧
        (∀ p : Post, (groupCleared gid p).text = p.text ∧
            (groupCleared gid p).author = p.author ∧
            (groupCleared gid p).pub_date = p.pub_date ∧
            (groupCleared gid p).image = p.image ∧
            (groupCleared gid p).id = p.id ∧
            (groupCleared gid p).group =
              (if p.group = some gid then none else p.group)) ∧
        (delete_group s gid).comments = s.comments) ∧
    (∀ (s : DBState) (pid : Nat),
        (∀ c ∈ (delete_post s pid).comments, c.post ≠ pid) ∧
        (∀ c ∈ s.comments, c.post ≠ pid → c ∈ (delete_post s pid).comments) ∧
        (∀ p ∈ (delete_post s pid).posts, p.id ≠ pid)) ∧
    (∀ (s : DBState) (uid : Nat),
        (∀ p ∈ (delete_user s uid).posts, p.author ≠ uid) ∧
        (∀ c ∈ (delete_user s uid).comments, c.author ≠ uid) ∧
        (∀ fl ∈ (delete_user s uid).follows, fl.user ≠ uid ∧ fl.author ≠ uid)) := by
  refine ⟨fun s gid => ⟨?_, ?_, ?_, rfl⟩, fun s pid => ⟨?_, ?_, ?_⟩,
          fun s uid => ⟨?_, ?_, ?_⟩⟩
  · exact List.length_map _ _
  · intro p hp
    exact List.mem_map_of_mem (groupCleared gid) hp
  · intro p
    unfold groupCleared
    split
    · next h =>
      rw [beq_iff_eq] at h
      simp [h]
    · next h =>
      rw [beq_iff_eq] at h
      simp [h]
  · intro c hc
    have := (List.mem_filter.mp hc).2
    simpa using this
  · intro c hc h
    exact List.mem_filter.mpr ⟨hc, by simpa using h⟩
  · intro p hp
    have := (List.mem_filter.mp hp).2
    simpa using this
  · intro p hp
    have := (List.mem_filter.mp hp).2
    simpa using this
  · intro c hc
    have := (List.mem_filter.mp hc).2
    simp only [Bool.not_eq_true', Bool.or_eq_false_iff] at this
    simpa using this.1
  · intro fl hfl
    have := (List.mem_filter.mp hfl).2
    simp only [Bool.not_eq_true', Bool.or_eq_false_iff] at this
    constructor
    · simpa using this.1
    · simpa using this.2

/-- Witness for `deletion_cascade` on the demo database: group 1 deletion
keeps post 1 with its group cleared; post 2 deletion keeps the comment on
post 1; user 1 deletion keeps the follow row (3 follows 2). -/
theorem deletion_cascade_witness :
    demoPostA ∈ demoBase.posts ∧
    groupCleared 1 demoPostA ∈ (delete_group demoBase 1).posts ∧
    ((⟨1, 1, 3, "hi", 6⟩ : Comment) ∈ (delete_post demoBase 2).comments) ∧
    demoPostA.id ≠ 2 ∧
    ((⟨1, 3, 2⟩ : Follow).user ≠ 1 ∧ (⟨1, 3, 2⟩ : Follow).author ≠ 1) :=
  ⟨by decide,
   (deletion_cascade.1 demoBase 1).2.1 demoPostA (by decide),
   (deletion_cascade.2.1 demoBase 2).2.1 ⟨1, 1, 3, "hi", 6⟩ (by decide) (by decide),
   (deletion_cascade.2.1 demoBase 2).2.2 demoPostA (by decide),
   (deletion_cascade.2.2 demoState 1).2.2 ⟨1, 3, 2⟩ (by decide)⟩

/-- C7: a non-author requesting the edit view for an existing post is
redirected to that post's detail page and the database is unchanged. -/
theorem edit_requires_author (s : DBState) (actor postId : Nat)
    (f : PostFormData) (post : Post)
    (hfind : s.posts.find? (fun p => p.id == postId) = some post)
    (hneq : post.author ≠ actor) :
    post_edit s actor postId f = (s, .redirect (.postDetail post.id)) := by
  unfold post_edit
  rw [hfind]
  dsimp only
  rw [if_pos (bne_iff_ne.mpr hneq)]

/-- Witness for `edit_requires_author`: user 1 asks to edit post 1
(authored by user 2) in the demo database. -/
theorem edit_requires_author_witness :
    demoBase.posts.find? (fun p => p.id == 1) = some demoPostA ∧
    demoPostA.author ≠ 1 ∧
    post_edit demoBase 1 1 demoForm = (demoBase, .redirect (.postDetail 1)) :=
  ⟨by decide, by decide,
   edit_requires_author demoBase 1 1 demoForm demoPostA (by decide) (by decide)⟩

/-- C8 counterexample: an invalid (empty-text) comment submission is not
re-rendered with the input preserved — `add_comment` answers with a
redirect to the post's detail page (though indeed nothing is persisted). -/
theorem comment_invalid_not_rerendered :
    (add_comment demoBase 3 1 "" 9).1 = demoBase ∧
    (add_comment demoBase 3 1 "" 9).2 = .redirect (.postDetail 1) ∧
    HttpResult.preservesInput (add_comment demoBase 3 1 "" 9).2 "" = false := by
  decide

/-- C8 (amended): an invalid submission persists nothing in any of the
three flows; post creation and post editing re-render the bound form with
the submitted text preserved, while an invalid comment submission is
answered with a redirect to the post's detail page, discarding the form
state. -/
theorem invalid_form_no_persist (s : DBState) (actor pid now : Nat)
    (f : PostFormData) (text : String) (post : Post)
    (hf : f.isValid = false) (ht : commentFormValid text = false)
    (hfind : s.posts.find? (fun p => p.id == pid) = some post)
    (hauthor : post.author = actor) :
    post_create s actor f now = (s, .render "posts/post_create.html" (some f)) ∧
    post_edit s actor pid f = (s, .render "posts/post_create.html" (some f)) ∧
    HttpResult.preservesInput (post_create s actor f now).2 f.text = true ∧
    HttpResult.preservesInput (post_edit s actor pid f).2 f.text = true ∧
    add_comment s actor pid text now = (s, .redirect (.postDetail post.id)) := by
  have hcreate : post_create s actor f now =
      (s, .render "posts/post_create.html" (some f)) := by
    unfold post_create
    rw [if_neg (by simp [hf])]
  have hedit : post_edit s actor pid f =
      (s, .render "posts/post_create.html" (some f)) := by
    unfold post_edit
    rw [hfind]
    dsimp only
    rw [hauthor, if_neg (by simp), if_neg (by simp [hf])]
  refine ⟨hcreate, hedit, ?_, ?_, ?_⟩
  · rw [hcreate]
    simp [HttpResult.preservesInput]
  · rw [hedit]
    simp [HttpResult.preservesInput]
  · unfold add_comment
    rw [hfind]
    dsimp only
    rw [if_neg (by simp [ht])]

/-- Witness for `invalid_form_no_persist`: user 2 (author of post 1)
submits the empty form in the demo database. -/
theorem invalid_form_no_persist_witness :
    emptyForm.isValid = false ∧ commentFormValid "" = false ∧
    demoBase.posts.find? (fun p => p.id == 1) = some demoPostA ∧
    (post_create demoBase 2 emptyForm 9 =
       (demoBase, .render "posts/post_create.html" (some emptyForm)) ∧
     post_edit demoBase 2 1 emptyForm =
       (demoBase, .render "posts/post_create.html" (some emptyForm)) ∧
     HttpResult.preservesInput (post_create demoBase 2 emptyForm 9).2 emptyForm.text = true ∧
     HttpResult.preservesInput (post_edit demoBase 2 1 emptyForm).2 emptyForm.text = true ∧
     add_comment demoBase 2 1 "" 9 = (demoBase, .redirect (.postDetail 1))) :=
  ⟨by decide, by decide, by decide,
   invalid_form_no_persist demoBase 2 1 9 emptyForm "" demoPostA
     (by decide) (by decide) (by decide) (by decide)⟩

/-- C1 counterexample: `Post.Meta.ordering` declares only `-pub_date`, so
for two posts sharing a timestamp the database may return the larger
primary key first — the pk-ascending tie-break claimed by the spec is not
enforced, and the permitted order is not unique. -/
theorem ordering_tie_not_deterministic :
    postsOrdered [tiedA, tiedB] [tiedB, tiedA] ∧
    ¬ List.Pairwise (fun a b : Post => a.pub_date = b.pub_date → a.id ≤ b.id)
        [tiedB, tiedA] ∧
    postsOrdered [tiedA, tiedB] [tiedA, tiedB] ∧
    ([tiedB, tiedA] : List Post) ≠ [tiedA, tiedB] := by
  refine ⟨⟨List.Perm.swap tiedB tiedA [], by decide⟩, by decide,
          ⟨List.Perm.refl _, by decide⟩, by decide⟩

/-- C1 (amended): every order the declared `Meta.ordering` permits is
sorted by creation timestamp descending — as is every page sliced from it
— and the order is unique (hence deterministic) whenever the timestamps
are pairwise distinct; with equal timestamps no tie-break is imposed. -/
theorem ordering_desc_unique_when_distinct (rows r1 r2 : List Post)
    (h1 : postsOrdered rows r1) :
    r1.Sorted dateDesc ∧
    (∀ (perPage : Nat) (param : Option Int),
        (get_page_context r1 perPage param).Sorted dateDesc) ∧
    (List.Pairwise (fun a b : Post => a.pub_date ≠ b.pub_date) rows →
        postsOrdered rows r2 → r1 = r2) := by
  obtain ⟨hperm, hsort⟩ := h1
  refine ⟨hsort, ?_, ?_⟩
  · intro perPage param
    have hsub : List.Sublist (get_page_context r1 perPage param) r1 := by
      simp only [get_page_context, pageItems]
      exact (List.take_sublist _ _).trans (List.drop_sublist _ _)
    exact List.Pairwise.sublist hsub hsort
  · intro hdist h2
    obtain ⟨hperm2, hsort2⟩ := h2
    have hd1 : r1.Pairwise (fun a b : Post => a.pub_date ≠ b.pub_date) :=
      (hperm.pairwise_iff fun h => Ne.symm h).mp hdist
    have hd2 : r2.Pairwise (fun a b : Post => a.pub_date ≠ b.pub_date) :=
      (hperm2.pairwise_iff fun h => Ne.symm h).mp hdist
    have hs1 : r1.Pairwise dateDescStrict :=
      (hsort.and hd1).imp fun h => Nat.lt_of_le_of_ne h.1 fun e => h.2 e.symm
    have hs2 : r2.Pairwise dateDescStrict :=
      (hsort2.and hd2).imp fun h => Nat.lt_of_le_of_ne h.1 fun e => h.2 e.symm
    exact List.eq_of_perm_of_sorted (hperm.symm.trans hperm2) hs1 hs2

/-- Witness for `ordering_desc_unique_when_distinct`: two posts with the
distinct timestamps 5 and 7 admit exactly one permitted order. -/
theorem ordering_desc_unique_witness :
    postsOrdered [tiedA, demoPostB] [demoPostB, tiedA] ∧
    List.Sorted dateDesc [demoPostB, tiedA] ∧
    (get_page_context [demoPostB, tiedA] 10 none).Sorted dateDesc ∧
    ([demoPostB, tiedA] : List Post) = [demoPostB, tiedA] := by
  have hpo : postsOrdered [tiedA, demoPostB] [demoPostB, tiedA] :=
    ⟨List.Perm.swap demoPostB tiedA [], by decide⟩
  have h := ordering_desc_unique_when_distinct [tiedA, demoPostB]
    [demoPostB, tiedA] [demoPostB, tiedA] hpo
  exact ⟨hpo, h.1, h.2.1 10 none, h.2.2 (by decide) hpo⟩

/-- Lookup after a store under the same key finds the stored entry. -/
theorem cacheLookup_store (c : CacheTable) (k : Option Int) (v : List Post × Nat) :
    cacheLookup (cacheStore c k v) k = some v := by
  unfold cacheLookup cacheStore
  rw [List.find?_cons_of_pos _ (by simp)]

/-- A request finding no cache entry renders from the database and caches
the body until `t + ttl`. -/
theorem indexRequest_miss (cs : CacheState) (k : Option Int) (t ttl perPage : Nat)
    (h : cacheLookup cs.cache k = none) :
    indexRequest cs k t ttl perPage =
      ({ cs with cache := cacheStore cs.cache k (renderIndex cs.db perPage k, t + ttl) },
       renderIndex cs.db perPage k) := by
  unfold indexRequest
  rw [h]

/-- A request finding a fresh cache entry serves it unchanged. -/
theorem indexRequest_hit (cs : CacheState) (k : Option Int) (t ttl perPage : Nat)
    (content : List Post) (e : Nat)
    (h : cacheLookup cs.cache k = some (content, e)) (ht : t < e) :
    indexRequest cs k t ttl perPage = (cs, content) := by
  unfold indexRequest
  rw [h]
  dsimp only
  rw [if_pos ht]

/-- A request finding an expired cache entry recomputes from the current
database and re-caches. -/
theorem indexRequest_expired (cs : CacheState) (k : Option Int) (t ttl perPage : Nat)
    (content : List Post) (e : Nat)
    (h : cacheLookup cs.cache k = some (content, e)) (ht : ¬ t < e) :
    indexRequest cs k t ttl perPage =
      ({ cs with cache := cacheStore cs.cache k (renderIndex cs.db perPage k, t + ttl) },
       renderIndex cs.db perPage k) := by
  unfold indexRequest
  rw [h]
  dsimp only
  rw [if_neg ht]

/-- C9: starting cold, a request caches the rendered home page body for
`ttl`; within the window a request returns that body unchanged even after
a post deletion; after the TTL has passed, or after an explicit cache
clear, the next request recomputes the body from the current database and
re-caches it under a new expiry. -/
theorem index_cache_contract (cs : CacheState) (k : Option Int)
    (t1 t2 t3 t4 ttl perPage pid : Nat)
    (hcold : cacheLookup cs.cache k = none)
    (hfresh : t2 < t1 + ttl) (hexp : t1 + ttl ≤ t4) :
    (indexRequest cs k t1 ttl perPage).2 = renderIndex cs.db perPage k ∧
    indexRequest (cacheDeletePost (indexRequest cs k t1 ttl perPage).1 pid) k t2 ttl perPage
      = (cacheDeletePost (indexRequest cs k t1 ttl perPage).1 pid,
         renderIndex cs.db perPage k) ∧
    (indexRequest (cacheDeletePost (indexRequest cs k t1 ttl perPage).1 pid)
        k t4 ttl perPage).2 = renderIndex (delete_post cs.db pid) perPage k ∧
    cacheLookup (indexRequest (cacheDeletePost (indexRequest cs k t1 ttl perPage).1 pid)
        k t4 ttl perPage).1.cache k
      = some (renderIndex (delete_post cs.db pid) perPage k, t4 + ttl) ∧
    (indexRequest (cache_clear (cacheDeletePost (indexRequest cs k t1 ttl perPage).1 pid))
        k t3 ttl perPage).2 = renderIndex (delete_post cs.db pid) perPage k ∧
    cacheLookup (indexRequest (cache_clear (cacheDeletePost
        (indexRequest cs k t1 ttl perPage).1 pid)) k t3 ttl perPage).1.cache k
      = some (renderIndex (delete_post cs.db pid) perPage k, t3 + ttl) := by
  have h1 := indexRequest_miss cs k t1 ttl perPage hcold
  have hres1 : (indexRequest cs k t1 ttl perPage).2 = renderIndex cs.db perPage k := by
    rw [h1]
  have hst1 : (indexRequest cs k t1 ttl perPage).1
      = { cs with cache := cacheStore cs.cache k (renderIndex cs.db perPage k, t1 + ttl) } := by
    rw [h1]
  have hcacheDel : (cacheDeletePost (indexRequest cs k t1 ttl perPage).1 pid).cache
      = cacheStore cs.cache k (renderIndex cs.db perPage k, t1 + ttl) := by
    rw [hst1]
    rfl
  have hdbDel : (cacheDeletePost (indexRequest cs k t1 ttl perPage).1 pid).db
      = delete_post cs.db pid := by
    rw [hst1]
    rfl
  have hlook : cacheLookup
      (cacheDeletePost (indexRequest cs k t1 ttl perPage).1 pid).cache k
      = some (renderIndex cs.db perPage k, t1 + ttl) := by
    rw [hcacheDel]
    exact cacheLookup_store _ _ _
  have h2 := indexRequest_hit (cacheDeletePost (indexRequest cs k t1 ttl perPage).1 pid)
    k t2 ttl perPage (renderIndex cs.db perPage k) (t1 + ttl) hlook hfresh
  have h4 := indexRequest_expired (cacheDeletePost (indexRequest cs k t1 ttl perPage).1 pid)
    k t4 ttl perPage (renderIndex cs.db perPage k) (t1 + ttl) hlook (by omega)
  have hclear : cacheLookup
      (cache_clear (cacheDeletePost (indexRequest cs k t1 ttl perPage).1 pid)).cache k
      = none := rfl
  have h3 := indexRequest_miss
    (cache_clear (cacheDeletePost (indexRequest cs k t1 ttl perPage).1 pid))
    k t3 ttl perPage hclear
  have hdbClear : (cache_clear (cacheDeletePost
      (indexRequest cs k t1 ttl perPage).1 pid)).db = delete_post cs.db pid := hdbDel
  refine ⟨hres1, h2, ?_, ?_, ?_, ?_⟩
  · rw [h4, hdbDel]
  · rw [h4]
    dsimp only
    rw [hdbDel]
    exact cacheLookup_store _ _ _
  · rw [h3]
    dsimp only
    rw [hdbClear]
  · rw [h3]
    dsimp only
    rw [hdbClear]
    exact cacheLookup_store _ _ _

/-- Witness for `index_cache_contract`: the demo database with a cold
cache, TTL 20, requests at times 0, 5 (fresh), 30 (expired) and 100
(after an explicit clear), post 2 deleted in between. -/
theorem index_cache_contract_witness :
    cacheLookup demoCache.cache none = none ∧ (5 < 0 + 20) ∧ (0 + 20 ≤ 30) ∧
    ((indexRequest demoCache none 0 20 10).2 = renderIndex demoCache.db 10 none ∧
     indexRequest (cacheDeletePost (indexRequest demoCache none 0 20 10).1 2) none 5 20 10
       = (cacheDeletePost (indexRequest demoCache none 0 20 10).1 2,
          renderIndex demoCache.db 10 none) ∧
     (indexRequest (cacheDeletePost (indexRequest demoCache none 0 20 10).1 2)
         none 30 20 10).2 = renderIndex (delete_post demoCache.db 2) 10 none ∧
     cacheLookup (indexRequest (cacheDeletePost (indexRequest demoCache none 0 20 10).1 2)
         none 30 20 10).1.cache none
       = some (renderIndex (delete_post demoCache.db 2) 10 none, 30 + 20) ∧
     (indexRequest (cache_clear (cacheDeletePost (indexRequest demoCache none 0 20 10).1 2))
         none 100 20 10).2 = renderIndex (delete_post demoCache.db 2) 10 none ∧
     cacheLookup (indexRequest (cache_clear (cacheDeletePost
         (indexRequest demoCache none 0 20 10).1 2)) none 100 20 10).1.cache none
       = some (renderIndex (delete_post demoCache.db 2) 10 none, 100 + 20)) :=
  ⟨rfl, by decide, by decide,
   index_cache_contract demoCache none 0 5 100 30 20 10 2 rfl (by decide) (by decide)⟩

end Yatube
